import Mathlib

/-!
Formal model of the KML viewer core (folder-tree toggles, entity
reconciliation and visibility projection), translated from the
repository's application source.

Modelling conventions:
* JS numbers are modelled as rationals; `Math.round` agrees with
  Mathlib's `round` (round half towards positive infinity).
* The geo key, a string `"name|lon,lat"` or `"name"` in the source, is
  modelled as a structured pair of the trimmed name and the optional
  rounded coordinate; the claims use keys only for equality.
* DOM elements and Cesium entity handles are modelled as plain records
  carrying the attributes the core reads (name, geometry presence, first
  coordinate, show flags).  `firstCoordFromPlacemark` /
  `firstCoordFromEntity` are external-data extractions and are modelled
  as stored optional coordinates.
* `haversineMeters` uses transcendental functions; the reconciliation is
  parameterised by an abstract distance function `dist` in its place.
* JS `Map`s are modelled as association lists with `Map` semantics
  (`set` replaces in place, insertion order preserved, iteration in
  insertion order).
* The recursions of the source (`setCheckedRecursive`, the upward while
  loop, the parent walk) terminate on the finite acyclic trees the
  builder produces; they are modelled with an explicit fuel argument.
-/

namespace VPlot

/-! ## Data model -/

/-- Longitude/latitude pair (JS numbers modelled as rationals). -/
structure Coord where
  lon : ℚ
  lat : ℚ
deriving DecidableEq, Repr

/-- Source `roundCoord`: `Math.round(v * p) / p` with `p = 10 ** digits`.
The result is encoded as the scaled integer `Math.round(v * p)`, which
determines the rounded value `r / p` bijectively (the key only ever
compares rounded values for equality).  It is computed by integer floor
division so that it reduces in the kernel; `roundCoord_eq_round` proves
it equal to Mathlib's `round` of the scaled value (`Math.round` rounds
half towards positive infinity, as `round` does). -/
def roundCoord (n : ℚ) (digits : ℕ) : ℤ :=
  (2 * n.num * (10 : ℤ) ^ digits + (n.den : ℤ)) / (2 * (n.den : ℤ))

/-- Source `coordKey`: both components rounded to five decimals.  In the
source this is the string `"lon,lat"` (null when a component is not a
finite number; rationals are always finite). -/
def coordKey (c : Coord) : ℤ × ℤ :=
  (roundCoord c.lon 5, roundCoord c.lat 5)

/-- JS `String.prototype.trim`: drop whitespace from both ends.
Defined over the character list so that it reduces in the kernel
(`String.trim` is defined by well-founded recursion on byte positions
and does not). -/
def jsTrim (s : String) : String :=
  ⟨((s.data.dropWhile Char.isWhitespace).reverse.dropWhile Char.isWhitespace).reverse⟩

/-- Comparison key derived from a trimmed name and an optional rounded
coordinate (source `placemarkKey`, which encodes it as a string). -/
structure GeoKey where
  name : String
  coord : Option (ℤ × ℤ)
deriving DecidableEq, Repr, Inhabited

/-- Source `placemarkKey`: trimmed name plus rounded coordinate when one
is available, otherwise the name alone. -/
def placemarkKey (name : String) (c : Option Coord) : GeoKey :=
  { name := jsTrim name, coord := c.map coordKey }

/-- Structural tag of a feature element (`tagName` in the source; only
these three tags survive `getChildFeatures`). -/
inductive FTag
  | Document
  | Folder
  | Placemark
deriving DecidableEq, Repr, Inhabited

/-- One tree node, as built by `buildTreeFromKml` (`featureEl` is a DOM
reference and is dropped from the model). -/
structure Node where
  id : Nat
  parentId : Option Nat
  name : String
  tag : FTag
  children : List Nat
  checked : Bool
  indeterminate : Bool
  expanded : Bool
  placemarkKeys : List GeoKey
deriving DecidableEq, Repr, Inhabited

/-- The node arena `state.nodesById` (a JS `Map` keyed by node id; ids
are modelled as naturals instead of the strings `"n1"`, `"n2"`, ...). -/
abbrev Arena := List (Nat × Node)

/-- JS `Map.prototype.get` on an association list. -/
def alookup {α β : Type} [DecidableEq α] : List (α × β) → α → Option β
  | [], _ => none
  | (k, v) :: rest, k' => if k' = k then some v else alookup rest k'

/-- JS `Map.prototype.set`: replace in place when the key exists (keeping
its position), otherwise append. -/
def mapSet {α β : Type} [DecidableEq α] : List (α × β) → α → β → List (α × β)
  | [], k, v => [(k, v)]
  | (k0, v0) :: rest, k, v =>
    if k = k0 then (k0, v) :: rest else (k0, v0) :: mapSet rest k v

/-- The `const arr = m.get(k) || []; arr.push(v); m.set(k, arr)` idiom
used to build multimaps in the source. -/
def mapPush {α β : Type} [DecidableEq α] (m : List (α × List β)) (k : α) (v : β) :
    List (α × List β) :=
  match alookup m k with
  | some arr => mapSet m k (arr ++ [v])
  | none => mapSet m k [v]

/-- Mutation of the node stored under one id (JS mutates the node object
held in the map in place). -/
def updMap (a : Arena) (id : Nat) (f : Node → Node) : Arena :=
  a.map fun p => (p.1, if p.1 = id then f p.2 else p.2)

/-- First-occurrence de-duplication, the `Array.from(new Set(xs))`
idiom of the source. -/
def jsDedup {α : Type} [DecidableEq α] (l : List α) : List α :=
  l.foldl (fun acc x => if x ∈ acc then acc else acc ++ [x]) []

/-! ## Toggle math (source section "Toggle math") -/

/-- Field update performed by `setCheckedRecursive` on each visited
node. -/
def setCheck (v : Bool) (n : Node) : Node :=
  { n with checked := v, indeterminate := false }

/-- Source `setCheckedRecursive(nodeId, checked)`: set
`checked = value`, `indeterminate = false` on the node and every
descendant.  Fuel models the recursion depth, which is finite on the
acyclic trees the builder produces. -/
def setCheckedRecursive : Nat → Arena → Nat → Bool → Arena
  | 0, a, _, _ => a
  | fuel + 1, a, id, v =>
    match alookup a id with
    | none => a
    | some n =>
      n.children.foldl (fun b c => setCheckedRecursive fuel b c v)
        (updMap a id (setCheck v))

/-- Source `setExpandedRecursive(nodeId, expanded)`: childless nodes are
left untouched (the source returns before writing `expanded`). -/
def setExpandedRecursive : Nat → Arena → Nat → Bool → Arena
  | 0, a, _, _ => a
  | fuel + 1, a, id, v =>
    match alookup a id with
    | none => a
    | some n =>
      if n.children.isEmpty then a
      else
        n.children.foldl (fun b c => setExpandedRecursive fuel b c v)
          (updMap a id (fun m => { m with expanded := v }))

/-- One iteration of the `recomputeIndeterminateUp` while loop: classify
the children of the node found under `id` and rewrite its checked/mixed
state.  A missing child contributes `checked = false,
indeterminate = false` (`Boolean(c?.checked)` in the source). -/
def recomputeStep (a : Arena) (id : Nat) (n : Node) : Arena :=
  if n.children.isEmpty then
    updMap a id (fun m => { m with indeterminate := false })
  else
    let cs := n.children.map fun cid =>
      (((alookup a cid).map Node.checked).getD false,
       ((alookup a cid).map Node.indeterminate).getD false)
    let allChecked := cs.all fun s => s.1 && !s.2
    let allUnchecked := cs.all fun s => !s.1 && !s.2
    if allChecked then
      updMap a id (fun m => { m with checked := true, indeterminate := false })
    else if allUnchecked then
      updMap a id (fun m => { m with checked := false, indeterminate := false })
    else
      updMap a id (fun m => { m with checked := true, indeterminate := true })

/-- Source `recomputeIndeterminateUp(nodeId)`: walk towards the root,
applying `recomputeStep` to each visited node; stop after a node with no
parent.  Fuel bounds the upward walk. -/
def recomputeIndeterminateUp : Nat → Arena → Nat → Arena
  | 0, a, _ => a
  | fuel + 1, a, id =>
    match alookup a id with
    | none => a
    | some n =>
      let a1 := recomputeStep a id n
      match n.parentId with
      | none => a1
      | some pid => recomputeIndeterminateUp fuel a1 pid

/-- Parent walk of `getEffectiveChecked`: the current node's `checked`
was already found true; follow `parentId` links, returning false on a
missing or unchecked ancestor (`if (!cur?.checked) return false`). -/
def effectiveLoop (a : Arena) : Nat → Node → Bool
  | 0, cur =>
    match cur.parentId with
    | none => true
    | some _ => false
  | fuel + 1, cur =>
    match cur.parentId with
    | none => true
    | some pid =>
      match alookup a pid with
      | none => false
      | some p => p.checked && effectiveLoop a fuel p

/-- Source `getEffectiveChecked(nodeId)`: a node is effectively checked
iff it and every ancestor up to the root is checked. -/
def getEffectiveChecked (a : Arena) (fuel : Nat) (id : Nat) : Bool :=
  match alookup a id with
  | none => false
  | some cur => cur.checked && effectiveLoop a fuel cur

/-- The proper ancestors of a node, from its parent up to the root, when
the parent chain closes within the given number of steps. -/
def chainToRoot (a : Arena) : Nat → Node → Option (List Node)
  | 0, cur =>
    match cur.parentId with
    | none => some []
    | some _ => none
  | fuel + 1, cur =>
    match cur.parentId with
    | none => some []
    | some pid =>
      match alookup a pid with
      | none => none
      | some p => (chainToRoot a fuel p).map (p :: ·)

/-! ## Characterisation devices for the cascade -/

/-- Ids reachable from `src` through `children` links within `fuel`
steps: exactly the set of nodes `setCheckedRecursive` visits. -/
def visitedB (a : Arena) : Nat → Nat → Nat → Bool
  | 0, _, _ => false
  | fuel + 1, src, tgt =>
    match alookup a src with
    | none => false
    | some n => decide (tgt = src) || n.children.any (fun c => visitedB a fuel c tgt)

/-- Simultaneous checked/indeterminate update of every node whose id
satisfies an indicator. -/
def setMany (s : Nat → Bool) (v : Bool) (a : Arena) : Arena :=
  a.map fun p => (p.1, if s p.1 then setCheck v p.2 else p.2)

/-! ## Bulk handlers (source "checkAll" / "uncheckAll" click handlers) -/

/-- Tree effect of the check-all handler: `setCheckedRecursive(root, true)`. -/
def checkAllOp (fuel : Nat) (a : Arena) (root : Nat) : Arena :=
  setCheckedRecursive fuel a root true

/-- Tree effect of the uncheck-all handler: cascade false from the root,
then force the root back to `checked = true, indeterminate = true`. -/
def uncheckAllOp (fuel : Nat) (a : Arena) (root : Nat) : Arena :=
  let a1 := setCheckedRecursive fuel a root false
  match alookup a1 root with
  | none => a1
  | some _ => updMap a1 root (fun n => { n with checked := true, indeterminate := true })

/-- The public toggle operations on the tree (the tree-mutation parts of
the checkbox change handler and of the bulk handlers). -/
inductive ToggleOp where
  | setChecked (id : Nat) (v : Bool)
  | recomputeUp (id : Nat)
  | checkAll
  | uncheckAll
deriving DecidableEq, Repr

def applyOp (fuel root : Nat) (a : Arena) : ToggleOp → Arena
  | .setChecked id v => setCheckedRecursive fuel a id v
  | .recomputeUp id => recomputeIndeterminateUp fuel a id
  | .checkAll => checkAllOp fuel a root
  | .uncheckAll => uncheckAllOp fuel a root

def applyOps (fuel root : Nat) (a : Arena) (ops : List ToggleOp) : Arena :=
  ops.foldl (applyOp fuel root) a

/-! ## Structural predicates -/

/-- The node keys of an arena are pairwise distinct (true of built
trees: ids come from an increasing counter). -/
def keysNodup (a : Arena) : Prop := (a.map Prod.fst).Nodup

/-- Toggle operations never change keys, tags or children; this view is
what they preserve. -/
def skel (a : Arena) : List (Nat × FTag × List Nat) :=
  a.map fun p => (p.1, p.2.tag, p.2.children)

/-- Build-time structure: distinct keys, placemarks are childless, and
the root (found by `findRootFeature`, always a Document or Folder) is
not a placemark. -/
def Static (root : Nat) (a : Arena) : Prop :=
  keysNodup a ∧
    (∀ p ∈ a, p.2.tag = FTag.Placemark → p.2.children = []) ∧
    (∀ p ∈ a, p.1 = root → p.2.tag ≠ FTag.Placemark)

/-- The tri-state invariant, with the uncheck-all root exception: every
mixed node is checked and is not a placemark, and every mixed non-root
node has at least one child. -/
def TriInv (root : Nat) (a : Arena) : Prop :=
  ∀ p ∈ a, p.2.indeterminate = true →
    p.2.checked = true ∧ p.2.tag ≠ FTag.Placemark ∧ (p.1 ≠ root → p.2.children ≠ [])

instance (root : Nat) (a : Arena) : Decidable (Static root a) := by
  unfold Static keysNodup
  exact inferInstance

instance (root : Nat) (a : Arena) : Decidable (TriInv root a) := by
  unfold TriInv
  exact inferInstance

/-! ## Tree builder (source `buildTreeFromKml`) -/

/-- Placemark record stored in the placemark index (the source stores
the DOM element and re-derives name and coordinate from it). -/
structure Pm where
  name : String
  coord : Option Coord
deriving DecidableEq, Repr, Inhabited

/-- Parsed feature element: tag, optional trimmed-or-not name element
text, the first parseable coordinate (placemarks), and the child
features surviving `getChildFeatures`. -/
inductive Feature where
  | feat (tag : FTag) (nameEl : Option String) (coord : Option Coord) (children : List Feature)

def tagName : FTag → String
  | .Document => "Document"
  | .Folder => "Folder"
  | .Placemark => "Placemark"

/-- Source `getFeatureName`: the trimmed name element text when it is
non-empty, else the structural tag name. -/
def getFeatureName (tag : FTag) (nameEl : Option String) : String :=
  match nameEl with
  | some s => if jsTrim s = "" then tagName tag else jsTrim s
  | none => tagName tag

/-- Builder state threaded through the depth-first construction:
the id counter (`nextIdFactory`), the node map and the placemark
index. -/
structure BuildSt where
  nextId : Nat
  nodesById : Arena
  placemarkIndex : List (GeoKey × Pm)

mutual

/-- Source `buildNode`: assign the next id, register the node, recurse
into child features, aggregate and de-duplicate placemark keys.
Returns the node id, its placemark keys, and the updated state. -/
def buildNode (f : Feature) (parentId : Option Nat) (st : BuildSt) :
    Nat × List GeoKey × BuildSt :=
  match f with
  | .feat tag nameEl coord children =>
    let name := getFeatureName tag nameEl
    let id := st.nextId
    match tag with
    | .Placemark =>
      let key := placemarkKey name coord
      let node : Node :=
        { id := id, parentId := parentId, name := name,
          tag := .Placemark, children := [], checked := true,
          indeterminate := false, expanded := false, placemarkKeys := [key] }
      (id, [key],
        { nextId := id + 1,
          nodesById := mapSet st.nodesById id node,
          placemarkIndex := mapSet st.placemarkIndex key { name := name, coord := coord } })
    | _ =>
      let node0 : Node :=
        { id := id, parentId := parentId, name := name,
          tag := tag, children := [], checked := true, indeterminate := false,
          expanded := true, placemarkKeys := [] }
      let st1 : BuildSt :=
        { nextId := id + 1,
          nodesById := mapSet st.nodesById id node0,
          placemarkIndex := st.placemarkIndex }
      let r := buildKids children id st1
      let st2 := r.2.2
      let keys := if r.2.1.length > 1 then jsDedup r.2.1 else r.2.1
      let node : Node := { node0 with children := r.1, placemarkKeys := keys }
      (id, keys, { st2 with nodesById := mapSet st2.nodesById id node })

/-- Child loop of `buildNode`, in document order. -/
def buildKids (fs : List Feature) (parentId : Nat) (st : BuildSt) :
    List Nat × List GeoKey × BuildSt :=
  match fs with
  | [] => ([], [], st)
  | f :: rest =>
    let r1 := buildNode f (some parentId) st
    let r2 := buildKids rest parentId r1.2.2
    (r1.1 :: r2.1, r1.2.1 ++ r2.2.1, r2.2.2)

end

structure BuildResult where
  nodesById : Arena
  rootNodeId : Nat
  placemarkIndex : List (GeoKey × Pm)

/-- Source `buildTreeFromKml`: run the builder on the root feature with
the counter starting at 1. -/
def buildTreeFromKml (root : Feature) : BuildResult :=
  let r := buildNode root none { nextId := 1, nodesById := [], placemarkIndex := [] }
  { nodesById := r.2.2.nodesById, rootNodeId := r.1, placemarkIndex := r.2.2.placemarkIndex }

/-! ## Renderable instances and session state -/

/-- A Cesium entity handle, reduced to the attributes the core reads and
writes: `visible` is `entity.show`, `labelVisible`/`billboardVisible`
are `entity.label.show`/`entity.billboard.show` when those parts exist,
`coord` is the result of `firstCoordFromEntity`. -/
structure Entity where
  id : Nat
  name : String
  hasPosition : Bool
  hasPolyline : Bool
  hasPolygon : Bool
  coord : Option Coord
  visible : Bool
  labelVisible : Option Bool
  billboardVisible : Option Bool
deriving DecidableEq, Repr, Inhabited

/-- The geometry heuristic of the reconciler
(`!e.position && !e.polyline && !e.polygon` skips the entity). -/
def hasGeom (e : Entity) : Bool :=
  e.hasPosition || e.hasPolyline || e.hasPolygon

/-- The mutable session (`state` plus the `kmlDataSource` global and
whether that collection is attached to the viewer).  `xml` and
`rootFeature` are DOM references and are dropped. -/
structure AppState where
  fileName : Option String
  nodesById : Arena
  rootNodeId : Option Nat
  entityIndex : List (GeoKey × List Nat)
  placemarkIndex : List (GeoKey × Pm)
  placemarkToEntity : List (GeoKey × List Nat)
  filterText : String
  userHasInteracted : Bool
  dataSource : Option (List Entity)
  attached : Bool
deriving DecidableEq, Repr

/-! ## Entity indexing and reconciliation -/

/-- Source `rebuildEntityIndex`: reset the index and group every entity
of the data source (no geometry filter) under its exact key.  Entities
are referenced by their Cesium id. -/
def rebuildEntityIndex (st : AppState) : AppState :=
  match st.dataSource with
  | none => { st with entityIndex := [] }
  | some ents =>
    { st with entityIndex :=
        ents.foldl (fun m e => mapPush m (placemarkKey e.name e.coord) e.id) [] }

/-- Name-keyed candidate pools of `rebuildPlacemarkToEntityMap`:
entities with some geometry, grouped by trimmed name. -/
def entitiesByName (ents : List Entity) : List (String × List Entity) :=
  ents.foldl (fun m e => if hasGeom e then mapPush m (jsTrim e.name) e else m) []

/-- Nearest-candidate fold of the reconciler: strictly smaller distance
wins, candidates without a coordinate are skipped, `bestDist` starts at
infinity. -/
def nearestCandidate (dist : Coord → Coord → ℚ) (pc : Coord) (cs : List Entity) :
    Option Entity :=
  (cs.foldl
    (fun acc c =>
      match c.coord with
      | none => acc
      | some cc =>
        match acc with
        | none => some (c, dist pc cc)
        | some (b, bd) =>
          if dist pc cc < bd then some (c, dist pc cc) else some (b, bd))
    none).map Prod.fst

/-- One iteration of the reconciliation loop over the placemark index:
unclaimed name-pool candidates, unique / nearest / first selection, and
the exact-key fallback (which, as in the source, does not filter by the
claimed set). -/
def reconcileStep (dist : Coord → Coord → ℚ) (byName : List (String × List Entity))
    (entityIndex : List (GeoKey × List Nat))
    (acc : List (GeoKey × List Nat) × List Nat) (kv : GeoKey × Pm) :
    List (GeoKey × List Nat) × List Nat :=
  let res := acc.1
  let used := acc.2
  let candidates :=
    ((alookup byName (jsTrim kv.2.name)).getD []).filter fun c => !(used.contains c.id)
  let best : Option Entity :=
    match candidates, kv.2.coord with
    | [c], _ => some c
    | c0 :: _ :: _, some pc =>
      match nearestCandidate dist pc candidates with
      | some b => some b
      | none => some c0
    | _, _ => none
  match best with
  | some b => (mapSet res kv.1 [b.id], used ++ [b.id])
  | none =>
    match alookup entityIndex kv.1 with
    | some exact =>
      if exact.isEmpty then (res, used)
      else (mapSet res kv.1 exact, used ++ exact)
    | none => (res, used)

/-- Source `rebuildPlacemarkToEntityMap`: reset the map; stop while it
is empty when there is no data source or no placemark index; otherwise
run the matching loop over the placemark index in insertion order. -/
def rebuildPlacemarkToEntityMap (dist : Coord → Coord → ℚ) (st : AppState) : AppState :=
  match st.dataSource with
  | none => { st with placemarkToEntity := [] }
  | some ents =>
    if st.placemarkIndex.isEmpty then { st with placemarkToEntity := [] }
    else
      let byName := entitiesByName ents
      { st with placemarkToEntity :=
          (st.placemarkIndex.foldl (reconcileStep dist byName st.entityIndex) ([], [])).1 }

/-! ## Visibility projection (source `applyVisibilityFromTree`) -/

/-- Keys of effectively checked placemark leaves, collected over all
nodes (a JS `Set`, modelled as a first-occurrence list). -/
def enabledKeys (a : Arena) : List GeoKey :=
  a.foldl
    (fun acc p =>
      if p.2.tag = FTag.Placemark then
        if getEffectiveChecked a a.length p.2.id then
          p.2.placemarkKeys.foldl (fun l k => if k ∈ l then l else l ++ [k]) acc
        else acc
      else acc)
    []

/-- Label pass of the projector: set label and billboard sub-visibility
to the negation of the hide-labels flag, where those parts exist. -/
def labelApply (hideLabels : Bool) (e : Entity) : Entity :=
  { e with labelVisible := e.labelVisible.map fun _ => !hideLabels,
           billboardVisible := e.billboardVisible.map fun _ => !hideLabels }

/-- Authoritative-mode show loop: for each enabled key, show every
entity the map assigns to it. -/
def showForKeys (m : List (GeoKey × List Nat)) (keys : List GeoKey)
    (ents : List Entity) : List Entity :=
  keys.foldl
    (fun acc k =>
      match alookup m k with
      | none => acc
      | some ids => acc.map fun e => if ids.contains e.id then { e with visible := true } else e)
    ents

/-- The session after the projector's on-demand rebuild attempt (`if
(!state.placemarkToEntity || size === 0) rebuildPlacemarkToEntityMap()`). -/
def rebuiltState (dist : Coord → Coord → ℚ) (st : AppState) : AppState :=
  if st.placemarkToEntity.isEmpty then rebuildPlacemarkToEntityMap dist st else st

/-- The reconciliation map the projector consults after its on-demand
rebuild attempt. -/
def effectiveMap (dist : Coord → Coord → ℚ) (st : AppState) :
    List (GeoKey × List Nat) :=
  (rebuiltState dist st).placemarkToEntity

/-- Body of the projector after the rebuild attempt: empty map ⇒ show
everything and stop (before the label pass); user has interacted ⇒ hide
everything then show the enabled keys; otherwise show everything; then
the label pass on the surviving branches. -/
def applyVisibilityCore (hideLabels : Bool) (enabled : List GeoKey) (st1 : AppState)
    (ents : List Entity) : AppState :=
  let m := st1.placemarkToEntity
  if m.isEmpty then
    { st1 with dataSource := some (ents.map fun e => { e with visible := true }) }
  else
    let ents1 :=
      if st1.userHasInteracted then
        showForKeys m enabled (ents.map fun e => { e with visible := false })
      else
        ents.map fun e => { e with visible := true }
    { st1 with dataSource := some (ents1.map (labelApply hideLabels)) }

/-- Source `applyVisibilityFromTree`: nothing to do without a data
source; otherwise collect the enabled keys, attempt the rebuild, and run
the body. -/
def applyVisibilityFromTree (dist : Coord → Coord → ℚ) (hideLabels : Bool)
    (st : AppState) : AppState :=
  match st.dataSource with
  | none => st
  | some ents =>
    applyVisibilityCore hideLabels (enabledKeys st.nodesById) (rebuiltState dist st) ents

/-! ## Document load (source `loadKml`) -/

inductive LoadOutcome
  | parseError
  | noRootError
  | renderError
  | success
deriving DecidableEq, Repr

/-- Inputs of one load: the file name, whether `DOMParser` produced a
`parsererror`, the root feature found by `findRootFeature` (Document or
Folder, none when absent), the renderer's result (`none` models a
rejected `Cesium.KmlDataSource.load`), and the hide-labels flag read by
the projector. -/
structure LoadInput where
  fileName : String
  parseOk : Bool
  root : Option Feature
  renderResult : Option (List Entity)
  hideLabels : Bool

/-- Post-build expansion pass of `loadKml`
(`for (const n of nodesById.values()) if (n.tag !== 'Placemark') n.expanded = true`). -/
def expandNonPlacemarks (a : Arena) : Arena :=
  a.map fun p =>
    if p.2.tag ≠ FTag.Placemark then (p.1, { p.2 with expanded := true }) else p

/-- Source `loadKml`, as a sequence of state transitions: parse check,
root check, tree state replacement (note: the source destructures only
`nodesById` and `rootNodeId`, so `state.placemarkIndex` is never
replaced), expansion pass, removal of the previous collection from the
viewer, the renderer load (the only rejection point after which the
function aborts), then index rebuilds and the visibility projection. -/
def loadKml (dist : Coord → Coord → ℚ) (st : AppState) (inp : LoadInput) :
    LoadOutcome × AppState :=
  if !inp.parseOk then (.parseError, st)
  else
    match inp.root with
    | none => (.noRootError, st)
    | some root =>
      let st1 := { st with fileName := some inp.fileName, filterText := "" }
      let br := buildTreeFromKml root
      let st2 :=
        { st1 with
          nodesById := expandNonPlacemarks br.nodesById,
          rootNodeId := some br.rootNodeId }
      let st3 := if st2.dataSource.isSome then { st2 with attached := false } else st2
      match inp.renderResult with
      | none => (.renderError, st3)
      | some ents =>
        let st4 := { st3 with dataSource := some ents, attached := true }
        let st5 := rebuildEntityIndex st4
        let st6 := rebuildPlacemarkToEntityMap dist st5
        let st7 := applyVisibilityFromTree dist inp.hideLabels st6
        (.success, st7)

/-! ## Concrete inputs for witnesses and counterexamples -/

/-- Concrete arena: root 1 (checked) with folder child 2 (unchecked)
containing placemark 3 (checked). -/
def sampleArena : Arena :=
  [(1, { id := 1, parentId := none, name := "Document", tag := .Document,
         children := [2], checked := true, indeterminate := false,
         expanded := true, placemarkKeys := [placemarkKey "P" none] }),
   (2, { id := 2, parentId := some 1, name := "F", tag := .Folder,
         children := [3], checked := false, indeterminate := false,
         expanded := true, placemarkKeys := [placemarkKey "P" none] }),
   (3, { id := 3, parentId := some 2, name := "P", tag := .Placemark,
         children := [], checked := true, indeterminate := false,
         expanded := false, placemarkKeys := [placemarkKey "P" none] })]

/-- A Document element with no child features. -/
def emptyDoc : Feature := .feat .Document none none []

/-- Placemark named "S" at longitude/latitude (2, 2). -/
def siteA : Feature := .feat .Placemark (some "S") (some ⟨2, 2⟩) []

/-- Placemark named "S" at longitude/latitude (1, 1). -/
def siteB : Feature := .feat .Placemark (some "S") (some ⟨1, 1⟩) []

/-- Document with two same-named placemarks at distinct coordinates. -/
def twoSitesDoc : Feature := .feat .Document none none [siteA, siteB]

/-- Document with three same-named placemarks, the last two sharing one
coordinate (and hence one GeoKey). -/
def collideDoc : Feature := .feat .Document none none [siteA, siteB, siteB]

/-- A single renderable named "S" with point geometry at (1, 1). -/
def entS : Entity :=
  { id := 1, name := "S", hasPosition := true, hasPolyline := false,
    hasPolygon := false, coord := some ⟨1, 1⟩, visible := true,
    labelVisible := some true, billboardVisible := none }

/-- A renderable with no geometry at all. -/
def entNoGeom : Entity :=
  { id := 5, name := "G", hasPosition := false, hasPolyline := false,
    hasPolygon := false, coord := none, visible := true,
    labelVisible := none, billboardVisible := none }

/-- Degenerate distance function for concrete runs whose control flow
never reaches the distance comparison. -/
def dist0 : Coord → Coord → ℚ := fun _ _ => 0

/-- An empty base session. -/
def emptyState : AppState :=
  { fileName := none, nodesById := [], rootNodeId := none, entityIndex := [],
    placemarkIndex := [], placemarkToEntity := [], filterText := "",
    userHasInteracted := false, dataSource := none, attached := false }

/-- Session after loading `twoSitesDoc` against the single entity `entS`
(the placemark index wired to the reconciler's input, as the claims
quantify over it). -/
def c1State : AppState :=
  { emptyState with
      nodesById := (buildTreeFromKml twoSitesDoc).nodesById,
      rootNodeId := some (buildTreeFromKml twoSitesDoc).rootNodeId,
      placemarkIndex := (buildTreeFromKml twoSitesDoc).placemarkIndex,
      dataSource := some [entS], attached := true }

/-- Reconciliation result on `c1State` after the index rebuild, in the
order `loadKml` performs them. -/
def c1Result : AppState :=
  rebuildPlacemarkToEntityMap dist0 (rebuildEntityIndex c1State)

/-- Document with a single placemark named "G" with no coordinate. -/
def gDoc : Feature := .feat .Document none none [.feat .Placemark (some "G") none []]

/-- Session for the geometry-less fallback run. -/
def c8State : AppState :=
  { emptyState with
      nodesById := (buildTreeFromKml gDoc).nodesById,
      rootNodeId := some (buildTreeFromKml gDoc).rootNodeId,
      placemarkIndex := (buildTreeFromKml gDoc).placemarkIndex,
      dataSource := some [entNoGeom], attached := true }

def c8Result : AppState :=
  rebuildPlacemarkToEntityMap dist0 (rebuildEntityIndex c8State)

/-- Tree of `collideDoc` after uncheck-all, then checking only the first
placemark (node 2) and recomputing upward from its parent — the tree
part of a toggle click on node 2. -/
def c10Arena : Arena :=
  applyOps 6 1 (buildTreeFromKml collideDoc).nodesById
    [.uncheckAll, .setChecked 2 true, .recomputeUp 1]

/-- Session in authoritative mode over the colliding document. -/
def c10State : AppState :=
  { emptyState with
      nodesById := c10Arena,
      rootNodeId := some 1,
      placemarkIndex := (buildTreeFromKml collideDoc).placemarkIndex,
      userHasInteracted := true,
      dataSource := some [entS], attached := true }

/-- Visibility projection on `c10State` (the projector performs the
on-demand map rebuild itself). -/
def c10Result : AppState :=
  applyVisibilityFromTree dist0 false (rebuildEntityIndex c10State)

/-- Tree node of a previously loaded document. -/
def oldNode : Node :=
  { id := 7, parentId := none, name := "Old", tag := .Document,
    children := [], checked := true, indeterminate := false, expanded := true,
    placemarkKeys := [] }

/-- Session holding a previous document, used to observe what a failing
load replaces. -/
def c3State : AppState :=
  { emptyState with
      fileName := some "old.kml",
      nodesById := [(7, oldNode)],
      rootNodeId := some 7,
      entityIndex := [(placemarkKey "X" none, [9])],
      placemarkToEntity := [(placemarkKey "X" none, [9])],
      filterText := "q", userHasInteracted := true,
      dataSource := some [entS], attached := true }

/-- A load whose parse and root stages succeed and whose renderer load
rejects. -/
def c3Input : LoadInput :=
  { fileName := "new.kml", parseOk := true, root := some emptyDoc,
    renderResult := none, hideLabels := false }

/-- Pre-interaction session with a non-empty reconciliation map and a
hidden entity, for the C2 witness. -/
def c2State : AppState :=
  { emptyState with
      placemarkToEntity := [(placemarkKey "S" none, [1])],
      userHasInteracted := false,
      dataSource := some [{ entS with visible := false }], attached := true }

/-- Session whose map is empty even after the rebuild attempt (empty
placemark index), with labels present, for the C7 counterexample. -/
def c7State : AppState :=
  { emptyState with
      userHasInteracted := true,
      dataSource := some [entS], attached := true }

/-! # Theorems -/

/-! ## The scaled rounding agrees with `round` -/

theorem roundCoord_eq_round (n : ℚ) (digits : ℕ) :
    roundCoord n digits = round (n * (10 : ℚ) ^ digits) := by
  rw [round_eq]
  have hden : (n.den : ℚ) ≠ 0 := Nat.cast_ne_zero.mpr n.den_nz
  have hden2 : ((2 * n.den : ℕ) : ℚ) ≠ 0 := by
    push_cast
    positivity
  have hnd : n * (n.den : ℚ) = (n.num : ℚ) := Rat.mul_den_eq_num n
  have hx : n * (10 : ℚ) ^ digits + 1 / 2 =
      ((2 * n.num * (10 : ℤ) ^ digits + (n.den : ℤ) : ℤ) : ℚ) / ((2 * n.den : ℕ) : ℚ) := by
    rw [eq_div_iff hden2]
    push_cast
    rw [show (n * 10 ^ digits + 1 / 2) * (2 * (n.den : ℚ)) =
        2 * (n * (n.den : ℚ)) * 10 ^ digits + (n.den : ℚ) by ring, hnd]
  rw [hx, Rat.floor_intCast_div_natCast]
  unfold roundCoord
  push_cast
  rfl

/-! ## Generic association-list lemmas -/

theorem alookup_mapVal {α β : Type} [DecidableEq α] (g : α → β → β) :
    ∀ (m : List (α × β)) (k : α),
      alookup (m.map fun p => (p.1, g p.1 p.2)) k = (alookup m k).map (g k) := by
  intro m
  induction m with
  | nil => intro k; simp [alookup]
  | cons hd tl ih =>
    obtain ⟨k0, v0⟩ := hd
    intro k
    by_cases h : k = k0 <;> simp [alookup, h, ih]

theorem lookup_mem_ne_none {α β : Type} [DecidableEq α] :
    ∀ (m : List (α × β)) (p : α × β), p ∈ m → alookup m p.1 ≠ none := by
  intro m
  induction m with
  | nil => intro p hp; simp at hp
  | cons hd tl ih =>
    obtain ⟨k0, v0⟩ := hd
    intro p hp
    rcases List.mem_cons.mp hp with h | h
    · subst h; simp [alookup]
    · by_cases hk : p.1 = k0 <;> simp [alookup, hk]
      exact ih p h

theorem alookup_mapSet {α β : Type} [DecidableEq α] :
    ∀ (m : List (α × β)) (k k' : α) (v : β),
      alookup (mapSet m k v) k' = if k' = k then some v else alookup m k' := by
  intro m
  induction m with
  | nil =>
    intro k k' v
    by_cases h : k' = k <;> simp [mapSet, alookup, h]
  | cons hd tl ih =>
    obtain ⟨k0, v0⟩ := hd
    intro k k' v
    by_cases h0 : k = k0
    · subst h0
      by_cases h1 : k' = k <;> simp [mapSet, alookup, h1]
    · by_cases h1 : k' = k0
      · subst h1
        have hne : k' ≠ k := fun h => h0 h.symm
        simp [mapSet, h0, alookup, hne]
      · simp [mapSet, h0, alookup, h1, ih]

theorem alookup_mapPush {α β : Type} [DecidableEq α] (m : List (α × List β))
    (k k' : α) (v : β) :
    alookup (mapPush m k v) k' =
      if k' = k then some ((alookup m k).getD [] ++ [v]) else alookup m k' := by
  unfold mapPush
  cases h : alookup m k with
  | none => rw [alookup_mapSet]; simp [h]
  | some arr => rw [alookup_mapSet]; simp [h]

theorem alookup_unique {α β : Type} [DecidableEq α] :
    ∀ (m : List (α × β)), (m.map Prod.fst).Nodup →
      ∀ p ∈ m, alookup m p.1 = some p.2 := by
  intro m
  induction m with
  | nil => intro _ p hp; simp at hp
  | cons hd tl ih =>
    obtain ⟨k0, v0⟩ := hd
    intro hnd p hp
    simp only [List.map_cons, List.nodup_cons] at hnd
    rcases List.mem_cons.mp hp with h | h
    · subst h; simp [alookup]
    · have hk : p.1 ≠ k0 := by
        intro he
        exact hnd.1 (he ▸ List.mem_map_of_mem Prod.fst h)
      simp [alookup, hk]
      exact ih hnd.2 p h

/-! ## Effective-checked (claim C4) -/

theorem effectiveLoop_eq_all_checked (a : Arena) :
    ∀ fuel (cur : Node) (anc : List Node), chainToRoot a fuel cur = some anc →
      effectiveLoop a fuel cur = anc.all (·.checked) := by
  intro fuel
  induction fuel with
  | zero =>
    intro cur anc h
    cases hp : cur.parentId with
    | none => simp [chainToRoot, hp] at h; subst h; simp [effectiveLoop, hp]
    | some pid => simp [chainToRoot, hp] at h
  | succ fuel ih =>
    intro cur anc h
    cases hp : cur.parentId with
    | none => simp [chainToRoot, hp] at h; subst h; simp [effectiveLoop, hp]
    | some pid =>
      simp only [chainToRoot, hp] at h
      cases hl : alookup a pid with
      | none => simp [hl] at h
      | some p =>
        simp only [hl] at h
        cases hc : chainToRoot a fuel p with
        | none => simp [hc] at h
        | some rest =>
          simp only [hc, Option.map_some', Option.some.injEq] at h
          subst h
          simp [effectiveLoop, hp, hl, ih p rest hc]

/-- Claim C4: `getEffectiveChecked(nodeId)` returns true iff the node and
every ancestor up to the root has `checked = true`; any unchecked node on
that chain forces false. -/
theorem getEffectiveChecked_iff_chain (a : Arena) (fuel id : Nat) (cur : Node)
    (anc : List Node) (h1 : alookup a id = some cur)
    (h2 : chainToRoot a fuel cur = some anc) :
    getEffectiveChecked a fuel id = (cur :: anc).all (·.checked) := by
  simp [getEffectiveChecked, h1, effectiveLoop_eq_all_checked a fuel cur anc h2]

/-- Witness for C4: in `sampleArena`, leaf 3 is itself checked but its
parent is unchecked, and `getEffectiveChecked` computes false, equal to
the conjunction over the chain. -/
theorem getEffectiveChecked_iff_chain_witness :
    alookup sampleArena 3 ≠ none ∧
      getEffectiveChecked sampleArena 5 3 =
        (((alookup sampleArena 3).getD default ::
            (chainToRoot sampleArena 5 ((alookup sampleArena 3).getD default)).getD []).all
          (·.checked)) ∧
      getEffectiveChecked sampleArena 5 3 = false := by
  refine ⟨by decide, ?_, by decide⟩
  exact getEffectiveChecked_iff_chain sampleArena 5 3 _ _ rfl rfl

/-! ## Missing ids (claim C9) -/

/-- Claim C9: the public operations are total and inert on a node id that
is not present in the arena: the recursive setters and the upward
recomputation return the arena unchanged, and `getEffectiveChecked`
returns false. -/
theorem missing_id_ops_inert (a : Arena) (id : Nat) (fuel : Nat) (v : Bool)
    (h : alookup a id = none) :
    setCheckedRecursive fuel a id v = a ∧
      setExpandedRecursive fuel a id v = a ∧
      recomputeIndeterminateUp fuel a id = a ∧
      getEffectiveChecked a fuel id = false := by
  refine ⟨?_, ?_, ?_, ?_⟩ <;> cases fuel <;>
    simp [setCheckedRecursive, setExpandedRecursive, recomputeIndeterminateUp,
      getEffectiveChecked, h]

/-- Witness for C9 at a concrete arena and a concrete missing id. -/
theorem missing_id_ops_inert_witness :
    alookup sampleArena 99 = none ∧
      setCheckedRecursive 4 sampleArena 99 true = sampleArena ∧
      setExpandedRecursive 4 sampleArena 99 true = sampleArena ∧
      recomputeIndeterminateUp 4 sampleArena 99 = sampleArena ∧
      getEffectiveChecked sampleArena 4 99 = false := by
  have h := missing_id_ops_inert sampleArena 99 4 true (by decide)
  exact ⟨by decide, h.1, h.2.1, h.2.2.1, h.2.2.2⟩

/-! ## Cascade characterisation -/

theorem alookup_setMany (s : Nat → Bool) (v : Bool) (a : Arena) (k : Nat) :
    alookup (setMany s v a) k =
      (alookup a k).map (fun n => if s k then setCheck v n else n) := by
  unfold setMany
  exact alookup_mapVal (fun k n => if s k then setCheck v n else n) a k

theorem alookup_updMap (a : Arena) (id : Nat) (f : Node → Node) (k : Nat) :
    alookup (updMap a id f) k =
      (alookup a k).map (fun n => if k = id then f n else n) := by
  unfold updMap
  exact alookup_mapVal (fun k n => if k = id then f n else n) a k

theorem setMany_congr {s s' : Nat → Bool} (v : Bool) (a : Arena)
    (h : ∀ k, s k = s' k) : setMany s v a = setMany s' v a := by
  unfold setMany
  exact List.map_congr_left fun p _ => by rw [h p.1]

theorem setMany_false (v : Bool) (a : Arena) :
    setMany (fun _ => false) v a = a := by
  unfold setMany
  simp

theorem setCheck_idem (v : Bool) (n : Node) :
    setCheck v (setCheck v n) = setCheck v n := rfl

theorem setMany_setMany (s s' : Nat → Bool) (v : Bool) (a : Arena) :
    setMany s' v (setMany s v a) = setMany (fun k => s k || s' k) v a := by
  unfold setMany
  rw [List.map_map]
  apply List.map_congr_left
  intro p _
  by_cases h1 : s p.1 <;> by_cases h2 : s' p.1 <;> simp [h1, h2, setCheck_idem]

theorem visitedB_setMany (s : Nat → Bool) (v : Bool) :
    ∀ (fuel : Nat) (a : Arena) (src tgt : Nat),
      visitedB (setMany s v a) fuel src tgt = visitedB a fuel src tgt := by
  intro fuel
  induction fuel with
  | zero => intros; rfl
  | succ fuel ih =>
    intro a src tgt
    simp only [visitedB, alookup_setMany]
    cases alookup a src with
    | none => rfl
    | some n => by_cases hs : s src <;> simp [hs, setCheck, ih]

theorem updMap_setCheck (a : Arena) (id : Nat) (v : Bool) :
    updMap a id (setCheck v) = setMany (fun k => decide (k = id)) v a := by
  unfold updMap setMany
  apply List.map_congr_left
  intro p _
  by_cases h : p.1 = id <;> simp [h]

/-- The recursive cascade equals the simultaneous update of every node
reachable from the start id within the given fuel. -/
theorem setCheckedRecursive_eq_setMany (v : Bool) :
    ∀ (fuel : Nat) (a : Arena) (id : Nat),
      setCheckedRecursive fuel a id v = setMany (fun k => visitedB a fuel id k) v a := by
  intro fuel
  induction fuel with
  | zero =>
    intro a id
    rw [show (fun k => visitedB a 0 id k) = (fun _ : Nat => false) from rfl, setMany_false]
    rfl
  | succ fuel ih =>
    intro a id
    cases hl : alookup a id with
    | none =>
      simp only [setCheckedRecursive, hl]
      have hz : ∀ k, visitedB a (fuel + 1) id k = false := by
        intro k; simp [visitedB, hl]
      rw [setMany_congr v a hz, setMany_false]
    | some n =>
      simp only [setCheckedRecursive, hl]
      have fold : ∀ (cs : List Nat) (s : Nat → Bool),
          cs.foldl (fun b c => setCheckedRecursive fuel b c v) (setMany s v a)
            = setMany (fun k => s k || cs.any (fun c => visitedB a fuel c k)) v a := by
        intro cs
        induction cs with
        | nil =>
          intro s
          simp only [List.foldl_nil, List.any_nil, Bool.or_false]
        | cons c cs ihc =>
          intro s
          simp only [List.foldl_cons]
          rw [ih (setMany s v a) c,
            setMany_congr v (setMany s v a)
              (fun k => visitedB_setMany s v fuel a c k),
            setMany_setMany, ihc]
          apply setMany_congr
          intro k
          simp [Bool.or_assoc]
      rw [updMap_setCheck, fold]
      apply setMany_congr
      intro k
      simp [visitedB, hl]

/-! ## Uncheck-all (claim C6) -/

/-- Claim C6: on any tree whose nodes are all reachable from the root,
`uncheckAll` leaves every non-root node `checked = false,
indeterminate = false`, and the root `checked = true,
indeterminate = true`. -/
theorem uncheckAll_unchecks_all (fuel : Nat) (a : Arena) (root : Nat)
    (hcov : ∀ p ∈ a, visitedB a fuel root p.1 = true) :
    ∀ p ∈ uncheckAllOp fuel a root,
      (p.1 = root → p.2.checked = true ∧ p.2.indeterminate = true) ∧
      (p.1 ≠ root → p.2.checked = false ∧ p.2.indeterminate = false) := by
  intro p hp
  simp only [uncheckAllOp, setCheckedRecursive_eq_setMany] at hp
  cases hl : alookup (setMany (fun k => visitedB a fuel root k) false a) root with
  | none =>
    simp only [hl] at hp
    obtain ⟨q, hq, hqe⟩ := List.mem_map.mp hp
    constructor
    · intro hr
      exact absurd hl (by
        have := lookup_mem_ne_none _ p hp
        rw [hr] at this
        simpa using this)
    · intro _
      have hv := hcov q hq
      rw [← hqe]
      simp [hv, setCheck]
  | some r =>
    simp only [hl] at hp
    unfold updMap at hp
    obtain ⟨q', hq', hqe⟩ := List.mem_map.mp hp
    obtain ⟨q, hq, hqe'⟩ := List.mem_map.mp hq'
    have hv := hcov q hq
    constructor
    · intro hr
      rw [← hqe]
      have : q'.1 = root := by rw [← hqe] at hr; exact hr
      simp [this]
    · intro hr
      rw [← hqe]
      have : q'.1 ≠ root := by rw [← hqe] at hr; exact hr
      simp only [this, if_neg this]
      rw [← hqe']
      simp [hv, setCheck]

/-- Witness for C6 on `sampleArena` (all three nodes reachable from root
1 with fuel 3): node 1 ends mixed, nodes 2 and 3 end cleared. -/
theorem uncheckAll_unchecks_all_witness :
    (∀ p ∈ sampleArena, visitedB sampleArena 3 1 p.1 = true) ∧
      (∀ p ∈ uncheckAllOp 3 sampleArena 1,
        (p.1 = 1 → p.2.checked = true ∧ p.2.indeterminate = true) ∧
        (p.1 ≠ 1 → p.2.checked = false ∧ p.2.indeterminate = false)) :=
  ⟨by decide, uncheckAll_unchecks_all 3 sampleArena 1 (by decide)⟩

/-! ## Reconciliation injectivity (claim C1) -/

/-- Claim C1 fails on the code: running the matching algorithm on the
placemark index of `twoSitesDoc` (two placemarks named "S" at (2, 2) and
(1, 1)) against the single instance `entS` (named "S" at (1, 1)) assigns
`entS` to the first placemark through the name pool, and then assigns it
again to the second placemark through the exact-GeoKey fallback, which
does not filter by the claimed set: the same RenderableInstance appears
in the sequences of two different GeoKeys. -/
theorem fallback_reassigns_claimed_instance :
    placemarkKey "S" (some ⟨2, 2⟩) ≠ placemarkKey "S" (some ⟨1, 1⟩) ∧
      alookup c1Result.placemarkToEntity (placemarkKey "S" (some ⟨2, 2⟩)) = some [1] ∧
      alookup c1Result.placemarkToEntity (placemarkKey "S" (some ⟨1, 1⟩)) = some [1] := by
  decide

/-! ## Geometry filter of the two indexes (claim C8) -/

/-- Counterexample to C8 as stated: `entNoGeom` carries no geometry, yet
the exact-GeoKey index (built without any geometry filter) lists it, and
the fallback assigns it to the coordinate-less placemark "G". -/
theorem geometryless_assigned_via_fallback :
    hasGeom entNoGeom = false ∧
      alookup (rebuildEntityIndex c8State).entityIndex (placemarkKey "G" none) = some [5] ∧
      alookup c8Result.placemarkToEntity (placemarkKey "G" none) = some [5] := by
  decide

theorem entitiesByName_fold_only_geometry :
    ∀ (l : List Entity) (m : List (String × List Entity)),
      (∀ nm pool, alookup m nm = some pool → ∀ e ∈ pool, hasGeom e = true) →
      ∀ nm pool,
        alookup (l.foldl (fun m e => if hasGeom e then mapPush m (jsTrim e.name) e else m) m) nm
          = some pool → ∀ e ∈ pool, hasGeom e = true := by
  intro l
  induction l with
  | nil => intro m hm nm pool h; exact hm nm pool h
  | cons a l ih =>
    intro m hm nm pool h
    simp only [List.foldl_cons] at h
    by_cases hg : hasGeom a
    · rw [if_pos hg] at h
      refine ih (mapPush m (jsTrim a.name) a) ?_ nm pool h
      intro nm' pool' h' e he
      rw [alookup_mapPush] at h'
      by_cases hk : nm' = jsTrim a.name
      · rw [if_pos hk] at h'
        obtain rfl := Option.some.inj h'
        rcases List.mem_append.mp he with h1 | h1
        · cases hb : alookup m (jsTrim a.name) with
          | none => rw [hb] at h1; simp at h1
          | some arr => rw [hb] at h1; exact hm _ arr hb e h1
        · rw [List.mem_singleton.mp h1]; exact hg
      · rw [if_neg hk] at h'
        exact hm nm' pool' h' e he
    · rw [if_neg hg] at h
      exact ih m hm nm pool h

theorem mem_bucket_mono :
    ∀ (l : List Entity) (m : List (GeoKey × List Nat)) (k : GeoKey) (x : Nat),
      x ∈ (alookup m k).getD [] →
      x ∈ (alookup (l.foldl (fun m e => mapPush m (placemarkKey e.name e.coord) e.id) m) k).getD [] := by
  intro l
  induction l with
  | nil => intro m k x hx; exact hx
  | cons a l ih =>
    intro m k x hx
    simp only [List.foldl_cons]
    refine ih _ k x ?_
    rw [alookup_mapPush]
    by_cases hk : k = placemarkKey a.name a.coord
    · rw [if_pos hk, Option.getD_some]
      refine List.mem_append.mpr (Or.inl ?_)
      rw [← hk]; exact hx
    · rw [if_neg hk]; exact hx

theorem mem_bucket_after_fold :
    ∀ (l : List Entity) (m : List (GeoKey × List Nat)) (e : Entity), e ∈ l →
      e.id ∈ (alookup (l.foldl (fun m e => mapPush m (placemarkKey e.name e.coord) e.id) m)
        (placemarkKey e.name e.coord)).getD [] := by
  intro l
  induction l with
  | nil => intro m e he; simp at he
  | cons a l ih =>
    intro m e he
    simp only [List.foldl_cons]
    rcases List.mem_cons.mp he with h | h
    · subst h
      refine mem_bucket_mono l _ _ _ ?_
      rw [alookup_mapPush, if_pos rfl, Option.getD_some]
      exact List.mem_append.mpr (Or.inr (List.mem_singleton.mpr rfl))
    · exact ih _ e h

/-- Claim C8 (amended): the name-grouped pools contain only instances
that carry geometry, but the exact-GeoKey index is built over all
instances of the collection, geometry or not — so a geometry-less
instance can still be assigned through the last-resort fallback (as the
counterexample exhibits), though never through the name-pool path. -/
theorem c8_amended :
    (∀ (ents : List Entity) (nm : String) (pool : List Entity),
      alookup (entitiesByName ents) nm = some pool → ∀ e ∈ pool, hasGeom e = true) ∧
    (∀ (st : AppState) (ents : List Entity), st.dataSource = some ents →
      ∀ e ∈ ents,
        e.id ∈ (alookup (rebuildEntityIndex st).entityIndex (placemarkKey e.name e.coord)).getD []) := by
  constructor
  · intro ents nm pool h
    exact entitiesByName_fold_only_geometry ents [] (by intro nm' pool' h'; simp [alookup] at h')
      nm pool h
  · intro st ents hds e he
    unfold rebuildEntityIndex
    rw [hds]
    exact mem_bucket_after_fold ents [] e he

/-- Witness for the amended C8 at concrete inputs: the pool of "S" over
`[entS, entNoGeom]` holds only geometry-bearing instances, and the index
over the same list covers both instances. -/
theorem c8_amended_witness :
    alookup (entitiesByName [entS, entNoGeom]) "S" = some [entS] ∧
      (∀ e ∈ [entS], hasGeom e = true) ∧
      ({ emptyState with dataSource := some [entS, entNoGeom] } : AppState).dataSource
        = some [entS, entNoGeom] ∧
      entS.id ∈ (alookup (rebuildEntityIndex
        { emptyState with dataSource := some [entS, entNoGeom] }).entityIndex
        (placemarkKey entS.name entS.coord)).getD [] ∧
      entNoGeom.id ∈ (alookup (rebuildEntityIndex
        { emptyState with dataSource := some [entS, entNoGeom] }).entityIndex
        (placemarkKey entNoGeom.name entNoGeom.coord)).getD [] := by
  refine ⟨by decide, ?_, rfl, ?_, ?_⟩
  · exact c8_amended.1 [entS, entNoGeom] "S" [entS] (by decide)
  · exact c8_amended.2 _ [entS, entNoGeom] rfl entS (by decide)
  · exact c8_amended.2 _ [entS, entNoGeom] rfl entNoGeom (by decide)

/-! ## Load atomicity (claim C3) -/

/-- Counterexample to C3 as stated: a load whose renderer call rejects
has already replaced the session's tree state (`nodesById`,
`rootNodeId`) and removed the previous collection from the view before
aborting. -/
theorem renderFailure_after_tree_replaced :
    (loadKml dist0 c3State c3Input).1 = LoadOutcome.renderError ∧
      (loadKml dist0 c3State c3Input).2.nodesById ≠ c3State.nodesById ∧
      (loadKml dist0 c3State c3Input).2.rootNodeId ≠ c3State.rootNodeId ∧
      c3State.attached = true ∧
      (loadKml dist0 c3State c3Input).2.attached = false := by
  decide

/-- Claim C3 (amended): a parse failure or a missing Document/Folder
root aborts the load with the whole session untouched; a renderer
rejection aborts only after the tree state has been replaced by the
freshly built tree and the previous collection has been detached from
the view, while the mapping state (`entityIndex`, `placemarkToEntity`,
`placemarkIndex`) and the previous collection handle are not yet
replaced. -/
theorem loadKml_failure_state (dist : Coord → Coord → ℚ) (st : AppState)
    (inp : LoadInput) :
    (inp.parseOk = false → loadKml dist st inp = (.parseError, st)) ∧
    (inp.parseOk = true → inp.root = none → loadKml dist st inp = (.noRootError, st)) ∧
    (∀ r, inp.parseOk = true → inp.root = some r → inp.renderResult = none →
      loadKml dist st inp = (.renderError,
        { st with
            fileName := some inp.fileName, filterText := "",
            nodesById := expandNonPlacemarks (buildTreeFromKml r).nodesById,
            rootNodeId := some (buildTreeFromKml r).rootNodeId,
            attached := if st.dataSource.isSome then false else st.attached })) := by
  refine ⟨?_, ?_, ?_⟩
  · intro hp
    simp [loadKml, hp]
  · intro hp hr
    simp [loadKml, hp, hr]
  · intro r hp hr hrr
    simp only [loadKml, hp, hr, hrr, Bool.not_true, Bool.false_eq_true, if_false]
    by_cases hds : st.dataSource.isSome <;> simp [hds]

/-- Witness for the amended C3 at concrete inputs, one per failure
stage. -/
theorem loadKml_failure_state_witness :
    loadKml dist0 c3State ({ c3Input with parseOk := false }) = (.parseError, c3State) ∧
      loadKml dist0 c3State ({ c3Input with root := none }) = (.noRootError, c3State) ∧
      (loadKml dist0 c3State c3Input).1 = .renderError ∧
      (loadKml dist0 c3State c3Input).2.placemarkToEntity = c3State.placemarkToEntity := by
  refine ⟨(loadKml_failure_state dist0 c3State _).1 rfl,
    (loadKml_failure_state dist0 c3State _).2.1 rfl rfl, ?_, ?_⟩
  · rw [(loadKml_failure_state dist0 c3State c3Input).2.2 emptyDoc rfl rfl rfl]
  · rw [(loadKml_failure_state dist0 c3State c3Input).2.2 emptyDoc rfl rfl rfl]

/-! ## Label pass (claim C7) -/

/-- Counterexample to C7 as stated: with an empty reconciliation map
(after the rebuild attempt) and the hide-labels flag set, the projector
returns before the label pass, leaving the instance's label
sub-visibility at `some true` instead of the negation of the flag. -/
theorem emptyMap_branch_skips_label_pass :
    ((applyVisibilityFromTree dist0 true c7State).dataSource.getD []).map
        (fun e => e.labelVisible) = [some true] ∧
      (!true : Bool) = false ∧
      effectiveMap dist0 c7State = [] := by
  decide

/-! ## Projector branch lemmas -/

theorem rebuild_preserves_surroundings (dist : Coord → Coord → ℚ) (st : AppState) :
    (rebuildPlacemarkToEntityMap dist st).userHasInteracted = st.userHasInteracted ∧
      (rebuildPlacemarkToEntityMap dist st).dataSource = st.dataSource ∧
      (rebuildPlacemarkToEntityMap dist st).nodesById = st.nodesById := by
  unfold rebuildPlacemarkToEntityMap
  cases hds : st.dataSource with
  | none => exact ⟨rfl, by simp [hds], rfl⟩
  | some ents =>
    by_cases hpi : st.placemarkIndex.isEmpty <;> simp [hpi, hds]

theorem rebuiltState_preserves (dist : Coord → Coord → ℚ) (st : AppState) :
    (rebuiltState dist st).userHasInteracted = st.userHasInteracted ∧
      (rebuiltState dist st).dataSource = st.dataSource ∧
      (rebuiltState dist st).nodesById = st.nodesById := by
  unfold rebuiltState
  split
  · exact rebuild_preserves_surroundings dist st
  · exact ⟨rfl, rfl, rfl⟩

theorem core_emptyMap (hide : Bool) (enabled : List GeoKey) (st1 : AppState)
    (ents : List Entity) (hm : st1.placemarkToEntity.isEmpty = true) :
    applyVisibilityCore hide enabled st1 ents =
      { st1 with dataSource := some (ents.map fun e => { e with visible := true }) } := by
  simp only [applyVisibilityCore]
  rw [if_pos hm]

theorem core_preInteraction (hide : Bool) (enabled : List GeoKey) (st1 : AppState)
    (ents : List Entity) (hm : st1.placemarkToEntity.isEmpty = false)
    (hui : st1.userHasInteracted = false) :
    applyVisibilityCore hide enabled st1 ents =
      { st1 with
          dataSource :=
            some ((ents.map fun e => { e with visible := true }).map (labelApply hide)) } := by
  simp only [applyVisibilityCore]
  rw [if_neg (by simp [hm]), if_neg (by simp [hui])]

theorem core_authoritative (hide : Bool) (enabled : List GeoKey) (st1 : AppState)
    (ents : List Entity) (hm : st1.placemarkToEntity.isEmpty = false)
    (hui : st1.userHasInteracted = true) :
    applyVisibilityCore hide enabled st1 ents =
      { st1 with
          dataSource :=
            some ((showForKeys st1.placemarkToEntity enabled
              (ents.map fun e => { e with visible := false })).map (labelApply hide)) } := by
  simp only [applyVisibilityCore]
  rw [if_neg (by simp [hm]), if_pos hui]

/-! ## Fail-open visibility (claim C2) -/

/-- Claim C2: whenever the visibility projection runs with an empty
reconciliation map (after the on-demand rebuild attempt), or before the
user has ever interacted with a toggle, every renderable instance of the
collection ends with `visible = true`, regardless of any node's checked
state. -/
theorem applyVisibility_failOpen (dist : Coord → Coord → ℚ) (hideLabels : Bool)
    (st : AppState)
    (h : (effectiveMap dist st).isEmpty = true ∨ st.userHasInteracted = false) :
    ∀ ents', (applyVisibilityFromTree dist hideLabels st).dataSource = some ents' →
      ∀ e ∈ ents', e.visible = true := by
  intro ents' hres e he
  cases hds : st.dataSource with
  | none => simp [applyVisibilityFromTree, hds] at hres
  | some ents =>
    simp only [applyVisibilityFromTree, hds] at hres
    by_cases hm : (effectiveMap dist st).isEmpty = true
    · rw [core_emptyMap hideLabels _ (rebuiltState dist st) ents hm] at hres
      obtain rfl := Option.some.inj hres
      obtain ⟨e0, _, rfl⟩ := List.mem_map.mp he
      rfl
    · have hm' : (rebuiltState dist st).placemarkToEntity.isEmpty = false :=
        Bool.eq_false_iff.mpr hm
      have hui : st.userHasInteracted = false := h.resolve_left hm
      have hui1 : (rebuiltState dist st).userHasInteracted = false := by
        rw [(rebuiltState_preserves dist st).1, hui]
      rw [core_preInteraction hideLabels _ (rebuiltState dist st) ents hm' hui1] at hres
      obtain rfl := Option.some.inj hres
      obtain ⟨e1, he1, rfl⟩ := List.mem_map.mp he
      obtain ⟨e0, _, rfl⟩ := List.mem_map.mp he1
      rfl

/-- Witness for C2: a pre-interaction session with a non-empty map and a
hidden instance; after the projection the instance is visible. -/
theorem applyVisibility_failOpen_witness :
    ((effectiveMap dist0 c2State).isEmpty = true ∨ c2State.userHasInteracted = false) ∧
      (applyVisibilityFromTree dist0 false c2State).dataSource = some [entS] ∧
      (∀ e ∈ [entS], e.visible = true) := by
  refine ⟨Or.inr rfl, by decide, ?_⟩
  exact applyVisibility_failOpen dist0 false c2State (Or.inr rfl) [entS] (by decide)

/-! ## Amended label pass (claim C7) -/

/-- Claim C7 (amended): the label pass sets the label and billboard
sub-visibility of every instance that has those parts to the negation of
the hide-labels flag and never changes `visible`; it runs in the
pre-interaction and authoritative branches (map non-empty after the
rebuild attempt), while the empty-map branch returns beforehand and
leaves sub-visibility untouched, every instance simply made visible. -/
theorem label_pass_scope (dist : Coord → Coord → ℚ) (hide : Bool) (st : AppState)
    (ents : List Entity) (hds : st.dataSource = some ents) :
    (∀ e : Entity,
      (labelApply hide e).visible = e.visible ∧
      (labelApply hide e).labelVisible = e.labelVisible.map (fun _ => !hide) ∧
      (labelApply hide e).billboardVisible = e.billboardVisible.map (fun _ => !hide)) ∧
    ((effectiveMap dist st).isEmpty = false →
      ∃ mid : List Entity,
        (applyVisibilityFromTree dist hide st).dataSource = some (mid.map (labelApply hide))) ∧
    ((effectiveMap dist st).isEmpty = true →
      (applyVisibilityFromTree dist hide st).dataSource =
        some (ents.map fun e => { e with visible := true })) := by
  refine ⟨fun e => ⟨rfl, rfl, rfl⟩, ?_, ?_⟩
  · intro hm
    simp only [applyVisibilityFromTree, hds]
    by_cases hui : (rebuiltState dist st).userHasInteracted = true
    · rw [core_authoritative hide _ (rebuiltState dist st) ents hm hui]
      exact ⟨showForKeys (rebuiltState dist st).placemarkToEntity (enabledKeys st.nodesById)
        (ents.map fun e => { e with visible := false }), rfl⟩
    · rw [core_preInteraction hide _ (rebuiltState dist st) ents hm
        (Bool.eq_false_iff.mpr hui)]
      exact ⟨ents.map fun e => { e with visible := true }, rfl⟩
  · intro hm
    simp only [applyVisibilityFromTree, hds]
    rw [core_emptyMap hide _ (rebuiltState dist st) ents hm]

/-- Witness for the amended C7: on `c7State` (empty map) the projector
returns the show-all list with labels untouched, and on `c2State`
(non-empty map) every instance passes through the label pass. -/
theorem label_pass_scope_witness :
    (labelApply true entS).labelVisible = some false ∧
      (labelApply true entS).visible = entS.visible ∧
      (effectiveMap dist0 c7State).isEmpty = true ∧
      (applyVisibilityFromTree dist0 true c7State).dataSource =
        some ([entS].map fun e => { e with visible := true }) ∧
      (effectiveMap dist0 c2State).isEmpty = false ∧
      (∃ mid : List Entity, (applyVisibilityFromTree dist0 true c2State).dataSource =
        some (mid.map (labelApply true))) := by
  refine ⟨?_, ?_, by decide, ?_, by decide, ?_⟩
  · rw [((label_pass_scope dist0 true c7State [entS] rfl).1 entS).2.1]; rfl
  · exact ((label_pass_scope dist0 true c7State [entS] rfl).1 entS).1
  · exact (label_pass_scope dist0 true c7State [entS] rfl).2.2 (by decide)
  · exact (label_pass_scope dist0 true c2State _ rfl).2.1 (by decide)

/-! ## GeoKey collisions and authoritative visibility (claim C10) -/

theorem showStep_comm (m : List (GeoKey × List Nat)) (ks : List GeoKey)
    (ids : List Nat) (e : Entity) :
    (fun e' : Entity =>
        if (ks.any fun k' => ((alookup m k').getD []).contains e'.id) = true then
          { e' with visible := true }
        else e')
      (if ids.contains e.id = true then { e with visible := true } else e) =
      if (ids.contains e.id || ks.any fun k' => ((alookup m k').getD []).contains e.id) = true then
        { e with visible := true }
      else e := by
  cases hc : ids.contains e.id <;> simp

theorem showForKeys_char (m : List (GeoKey × List Nat)) :
    ∀ (keys : List GeoKey) (ents : List Entity),
      showForKeys m keys ents = ents.map fun e =>
        if keys.any (fun k => ((alookup m k).getD []).contains e.id) then
          { e with visible := true }
        else e := by
  intro keys
  induction keys with
  | nil =>
    intro ents
    simp [showForKeys]
  | cons k ks ih =>
    intro ents
    cases hk : alookup m k with
    | none =>
      have hstep : showForKeys m (k :: ks) ents = showForKeys m ks ents := by
        simp only [showForKeys, List.foldl_cons, hk]
      rw [hstep, ih ents]
      apply List.map_congr_left
      intro e _
      simp [hk]
    | some ids =>
      have hstep : showForKeys m (k :: ks) ents =
          showForKeys m ks
            (ents.map fun e => if ids.contains e.id then { e with visible := true } else e) := by
        simp only [showForKeys, List.foldl_cons, hk]
      rw [hstep, ih, List.map_map]
      apply List.map_congr_left
      intro e _
      rw [List.any_cons, hk, Option.getD_some]
      exact showStep_comm m ks ids e

theorem mem_addKeys :
    ∀ (ks : List GeoKey) (acc : List GeoKey) (k : GeoKey),
      k ∈ ks.foldl (fun l k' => if k' ∈ l then l else l ++ [k']) acc ↔ k ∈ acc ∨ k ∈ ks := by
  intro ks
  induction ks with
  | nil => intro acc k; simp
  | cons k0 ks ih =>
    intro acc k
    simp only [List.foldl_cons]
    rw [ih]
    by_cases h0 : k0 ∈ acc
    · rw [if_pos h0]
      constructor
      · rintro (h | h)
        · exact Or.inl h
        · exact Or.inr (List.mem_cons_of_mem _ h)
      · rintro (h | h)
        · exact Or.inl h
        · rcases List.mem_cons.mp h with rfl | h
          · exact Or.inl h0
          · exact Or.inr h
    · rw [if_neg h0]
      constructor
      · rintro (h | h)
        · rcases List.mem_append.mp h with h | h
          · exact Or.inl h
          · exact Or.inr (List.mem_cons.mpr (Or.inl (List.mem_singleton.mp h)))
        · exact Or.inr (List.mem_cons_of_mem _ h)
      · rintro (h | h)
        · exact Or.inl (List.mem_append.mpr (Or.inl h))
        · rcases List.mem_cons.mp h with rfl | h
          · exact Or.inl (List.mem_append.mpr (Or.inr (List.mem_singleton.mpr rfl)))
          · exact Or.inr h

/-- Membership in the enabled-key set: exactly the keys of effectively
checked placemark nodes. -/
theorem mem_enabledKeys (a : Arena) (k : GeoKey) :
    k ∈ enabledKeys a ↔
      ∃ p ∈ a, p.2.tag = FTag.Placemark ∧
        getEffectiveChecked a a.length p.2.id = true ∧ k ∈ p.2.placemarkKeys := by
  have main : ∀ (l : List (Nat × Node)) (acc : List GeoKey),
      k ∈ l.foldl
          (fun acc p =>
            if p.2.tag = FTag.Placemark then
              if getEffectiveChecked a a.length p.2.id then
                p.2.placemarkKeys.foldl (fun l k => if k ∈ l then l else l ++ [k]) acc
              else acc
            else acc)
          acc ↔
        k ∈ acc ∨ ∃ p ∈ l, p.2.tag = FTag.Placemark ∧
          getEffectiveChecked a a.length p.2.id = true ∧ k ∈ p.2.placemarkKeys := by
    intro l
    induction l with
    | nil => intro acc; simp
    | cons q l ih =>
      intro acc
      simp only [List.foldl_cons]
      by_cases ht : q.2.tag = FTag.Placemark
      · by_cases he : getEffectiveChecked a a.length q.2.id = true
        · rw [if_pos ht, if_pos he, ih, mem_addKeys]
          constructor
          · rintro ((h | h) | h)
            · exact Or.inl h
            · exact Or.inr ⟨q, List.mem_cons_self q l, ht, he, h⟩
            · obtain ⟨p, hp, hc⟩ := h
              exact Or.inr ⟨p, List.mem_cons_of_mem _ hp, hc⟩
          · rintro (h | h)
            · exact Or.inl (Or.inl h)
            · obtain ⟨p, hp, hc⟩ := h
              rcases List.mem_cons.mp hp with rfl | hp
              · exact Or.inl (Or.inr hc.2.2)
              · exact Or.inr ⟨p, hp, hc⟩
        · rw [if_pos ht, if_neg he, ih]
          constructor
          · rintro (h | h)
            · exact Or.inl h
            · obtain ⟨p, hp, hc⟩ := h
              exact Or.inr ⟨p, List.mem_cons_of_mem _ hp, hc⟩
          · rintro (h | h)
            · exact Or.inl h
            · obtain ⟨p, hp, hc⟩ := h
              rcases List.mem_cons.mp hp with rfl | hp
              · exact absurd hc.2.1 he
              · exact Or.inr ⟨p, hp, hc⟩
      · rw [if_neg ht, ih]
        constructor
        · rintro (h | h)
          · exact Or.inl h
          · obtain ⟨p, hp, hc⟩ := h
            exact Or.inr ⟨p, List.mem_cons_of_mem _ hp, hc⟩
        · rintro (h | h)
          · exact Or.inl h
          · obtain ⟨p, hp, hc⟩ := h
            rcases List.mem_cons.mp hp with rfl | hp
            · exact absurd hc.1 ht
            · exact Or.inr ⟨p, hp, hc⟩
  have h0 := main a []
  simp only [List.not_mem_nil, false_or] at h0
  exact h0

/-- Counterexample to C10 as stated: in the colliding document (three
placemarks named "S", the last two sharing the key of coordinate (1, 1))
with only the first placemark (node 2) effectively checked, entity 1 is
mapped under the colliding key, neither colliding leaf (nodes 3 and 4)
is effectively checked, yet the instance is shown — it is also mapped
under node 2's key through the name pool. -/
theorem collision_instance_shown_without_checked_leaf :
    alookup c10Result.placemarkToEntity (placemarkKey "S" (some ⟨1, 1⟩)) = some [1] ∧
      (alookup c10Arena 3).map (fun n => n.placemarkKeys)
        = some [placemarkKey "S" (some ⟨1, 1⟩)] ∧
      (alookup c10Arena 4).map (fun n => n.placemarkKeys)
        = some [placemarkKey "S" (some ⟨1, 1⟩)] ∧
      getEffectiveChecked c10Arena c10Arena.length 3 = false ∧
      getEffectiveChecked c10Arena c10Arena.length 4 = false ∧
      c10State.userHasInteracted = true ∧
      (c10Result.dataSource.getD []).map (fun e => (e.id, e.visible)) = [(1, true)] := by
  decide

/-- Claim C10 (amended): a later placemark-index write at an existing
GeoKey replaces the stored record in place (only the last one built
survives; other keys are untouched); and in authoritative mode an
instance is shown iff some enabled key maps its id — so an instance
mapped only under the colliding key is shown iff one of the colliding
leaves is effectively checked, while an instance also mapped under a
second, enabled key can be shown even when no colliding leaf is
checked. -/
theorem c10_amended :
    (∀ (m : List (GeoKey × Pm)) (k : GeoKey) (v : Pm),
      alookup (mapSet m k v) k = some v ∧
      ∀ k', k' ≠ k → alookup (mapSet m k v) k' = alookup m k') ∧
    (∀ (dist : Coord → Coord → ℚ) (hide : Bool) (st : AppState) (ents : List Entity),
      st.dataSource = some ents → st.userHasInteracted = true →
      (effectiveMap dist st).isEmpty = false →
      (applyVisibilityFromTree dist hide st).dataSource =
        some (ents.map fun e => labelApply hide
          { e with
              visible := (enabledKeys st.nodesById).any
                (fun k => ((alookup (effectiveMap dist st) k).getD []).contains e.id) })) := by
  constructor
  · intro m k v
    refine ⟨by rw [alookup_mapSet]; simp, ?_⟩
    intro k' hk
    rw [alookup_mapSet, if_neg hk]
  · intro dist hide st ents hds hui hm
    have hui1 : (rebuiltState dist st).userHasInteracted = true := by
      rw [(rebuiltState_preserves dist st).1, hui]
    simp only [applyVisibilityFromTree, hds]
    rw [core_authoritative hide _ (rebuiltState dist st) ents hm hui1]
    show some ((showForKeys (rebuiltState dist st).placemarkToEntity (enabledKeys st.nodesById)
        (ents.map fun e => { e with visible := false })).map (labelApply hide)) = _
    rw [showForKeys_char, List.map_map, List.map_map]
    apply congrArg
    apply List.map_congr_left
    intro e _
    simp only [effectiveMap, Function.comp]
    by_cases hc : ((enabledKeys st.nodesById).any
        fun k => ((alookup (rebuiltState dist st).placemarkToEntity k).getD []).contains e.id)
      = true
    · rw [if_pos hc, hc]
    · rw [if_neg hc, Bool.eq_false_iff.mpr hc]

/-- Witness for the amended C10: the two mapSet facts at the colliding
key of `collideDoc`, and the authoritative characterisation evaluated on
the colliding session (the instance is shown because its id sits under
an enabled key). -/
theorem c10_amended_witness :
    alookup (mapSet [(placemarkKey "S" (some ⟨1, 1⟩), ({ name := "S", coord := some ⟨1, 1⟩ } : Pm))]
        (placemarkKey "S" (some ⟨1, 1⟩)) ({ name := "S2", coord := some ⟨1, 1⟩ } : Pm))
      (placemarkKey "S" (some ⟨1, 1⟩)) = some { name := "S2", coord := some ⟨1, 1⟩ } ∧
      (applyVisibilityFromTree dist0 false (rebuildEntityIndex c10State)).dataSource =
        some ([entS].map fun e => labelApply false
          { e with
              visible := (enabledKeys (rebuildEntityIndex c10State).nodesById).any
                (fun k => ((alookup (effectiveMap dist0 (rebuildEntityIndex c10State)) k).getD
                  []).contains e.id) }) := by
  constructor
  · exact (c10_amended.1 _ (placemarkKey "S" (some ⟨1, 1⟩)) _).1
  · exact c10_amended.2 dist0 false (rebuildEntityIndex c10State) [entS] (by decide) (by decide)
      (by decide)

/-! ## Tri-state invariant (claim C5) -/

theorem mem_map_pair (a : Arena) (g : Nat → Node → Node) (p : Nat × Node)
    (hp : p ∈ a.map fun q => (q.1, g q.1 q.2)) :
    ∃ q ∈ a, p.1 = q.1 ∧ p.2 = g q.1 q.2 := by
  obtain ⟨q, hq, hqe⟩ := List.mem_map.mp hp
  exact ⟨q, hq, by rw [← hqe], by rw [← hqe]⟩

theorem skel_mapVal (a : Arena) (g : Nat → Node → Node)
    (h : ∀ k n, (g k n).tag = n.tag ∧ (g k n).children = n.children) :
    skel (a.map fun p => (p.1, g p.1 p.2)) = skel a := by
  unfold skel
  rw [List.map_map]
  apply List.map_congr_left
  intro p _
  simp [Function.comp, (h p.1 p.2).1, (h p.1 p.2).2]

theorem skel_setMany (s : Nat → Bool) (v : Bool) (a : Arena) :
    skel (setMany s v a) = skel a := by
  unfold setMany
  exact skel_mapVal a (fun k n => if s k then setCheck v n else n)
    fun k n => by by_cases hs : s k <;> simp [hs, setCheck]

theorem skel_updMap (a : Arena) (id : Nat) (f : Node → Node)
    (h : ∀ n, (f n).tag = n.tag ∧ (f n).children = n.children) :
    skel (updMap a id f) = skel a := by
  unfold updMap
  exact skel_mapVal a (fun k n => if k = id then f n else n)
    fun k n => by by_cases hk : k = id <;> simp [hk, h n]

theorem skel_setCheckedRecursive (fuel : Nat) (a : Arena) (id : Nat) (v : Bool) :
    skel (setCheckedRecursive fuel a id v) = skel a := by
  rw [setCheckedRecursive_eq_setMany]
  exact skel_setMany _ v a

theorem skel_recomputeStep (a : Arena) (id : Nat) (n : Node) :
    skel (recomputeStep a id n) = skel a := by
  simp only [recomputeStep]
  split
  · exact skel_updMap a id _ fun m => ⟨rfl, rfl⟩
  · split
    · exact skel_updMap a id _ fun m => ⟨rfl, rfl⟩
    · split
      · exact skel_updMap a id _ fun m => ⟨rfl, rfl⟩
      · exact skel_updMap a id _ fun m => ⟨rfl, rfl⟩

theorem skel_recomputeUp (fuel : Nat) :
    ∀ (a : Arena) (id : Nat), skel (recomputeIndeterminateUp fuel a id) = skel a := by
  induction fuel with
  | zero => intro a id; rfl
  | succ fuel ih =>
    intro a id
    cases hl : alookup a id with
    | none => simp only [recomputeIndeterminateUp, hl]
    | some n =>
      simp only [recomputeIndeterminateUp, hl]
      cases hp : n.parentId with
      | none => exact skel_recomputeStep a id n
      | some pid =>
        show skel (recomputeIndeterminateUp fuel (recomputeStep a id n) pid) = skel a
        rw [ih (recomputeStep a id n) pid, skel_recomputeStep]

theorem skel_uncheckAllOp (fuel : Nat) (a : Arena) (root : Nat) :
    skel (uncheckAllOp fuel a root) = skel a := by
  simp only [uncheckAllOp]
  cases hl : alookup (setCheckedRecursive fuel a root false) root with
  | none =>
    simp only [hl]
    exact skel_setCheckedRecursive fuel a root false
  | some r =>
    simp only [hl]
    rw [skel_updMap _ root (fun n => { n with checked := true, indeterminate := true })
        (fun n => ⟨rfl, rfl⟩),
      skel_setCheckedRecursive]

theorem skel_applyOp (fuel root : Nat) (a : Arena) (op : ToggleOp) :
    skel (applyOp fuel root a op) = skel a := by
  cases op with
  | setChecked id v => exact skel_setCheckedRecursive fuel a id v
  | recomputeUp id => exact skel_recomputeUp fuel a id
  | checkAll => exact skel_setCheckedRecursive fuel a root true
  | uncheckAll => exact skel_uncheckAllOp fuel a root

theorem static_of_skel {root : Nat} {a b : Arena} (h : skel b = skel a)
    (hs : Static root a) : Static root b := by
  obtain ⟨h1, h2, h3⟩ := hs
  have hkeys : b.map Prod.fst = a.map Prod.fst := by
    have hb : b.map Prod.fst = (skel b).map Prod.fst := by
      unfold skel; rw [List.map_map]; rfl
    have ha : a.map Prod.fst = (skel a).map Prod.fst := by
      unfold skel; rw [List.map_map]; rfl
    rw [hb, h, ← ha]
  have hmem : ∀ p ∈ b, ∃ q ∈ a, q.1 = p.1 ∧ q.2.tag = p.2.tag ∧ q.2.children = p.2.children := by
    intro p hp
    have hsk : (p.1, p.2.tag, p.2.children) ∈ skel a := by
      rw [← h]
      exact List.mem_map_of_mem _ hp
    obtain ⟨q, hq, hqe⟩ := List.mem_map.mp hsk
    exact ⟨q, hq, congrArg (fun x => x.1) hqe, congrArg (fun x => x.2.1) hqe,
      congrArg (fun x => x.2.2) hqe⟩
  refine ⟨?_, ?_, ?_⟩
  · unfold keysNodup
    rw [hkeys]
    exact h1
  · intro p hp hpt
    obtain ⟨q, hq, _, ht, hc⟩ := hmem p hp
    rw [← hc]
    exact h2 q hq (ht.trans hpt)
  · intro p hp hpr
    obtain ⟨q, hq, hk, ht, _⟩ := hmem p hp
    rw [← ht]
    exact h3 q hq (hk.trans hpr)

theorem triInv_setMany (root : Nat) (s : Nat → Bool) (v : Bool) (a : Arena)
    (h : TriInv root a) : TriInv root (setMany s v a) := by
  intro p hp hind
  unfold setMany at hp
  obtain ⟨q, hq, h1, h2⟩ :=
    mem_map_pair a (fun k n => if s k then setCheck v n else n) p hp
  by_cases hs : s q.1
  · rw [h2, if_pos hs] at hind
    exact absurd hind (by simp [setCheck])
  · rw [h2, if_neg hs] at hind
    have := h q hq hind
    rw [h1, h2, if_neg hs]
    exact this

theorem triInv_setCheckedRecursive (root fuel : Nat) (a : Arena) (id : Nat) (v : Bool)
    (h : TriInv root a) : TriInv root (setCheckedRecursive fuel a id v) := by
  rw [setCheckedRecursive_eq_setMany]
  exact triInv_setMany root _ v a h

theorem triInv_recomputeStep (root : Nat) (a : Arena) (id : Nat) (n : Node)
    (hl : alookup a id = some n) (hs : Static root a) (h : TriInv root a) :
    TriInv root (recomputeStep a id n) := by
  have base : ∀ (f : Node → Node),
      (∀ m, (f m).indeterminate = false) → TriInv root (updMap a id f) := by
    intro f hf p hp hind
    unfold updMap at hp
    obtain ⟨q, hq, h1, h2⟩ :=
      mem_map_pair a (fun k n => if k = id then f n else n) p hp
    by_cases hk : q.1 = id
    · rw [h2, if_pos hk, hf] at hind
      cases hind
    · rw [h2, if_neg hk] at hind
      have := h q hq hind
      rw [h1, h2, if_neg hk]
      exact this
  simp only [recomputeStep]
  split
  · exact base _ fun m => rfl
  · next hce =>
    split
    · exact base _ fun m => rfl
    · split
      · exact base _ fun m => rfl
      · intro p hp hind
        unfold updMap at hp
        obtain ⟨q, hq, h1, h2⟩ :=
          mem_map_pair a
            (fun k n => if k = id then { n with checked := true, indeterminate := true } else n)
            p hp
        by_cases hk : q.1 = id
        · have hqn : q.2 = n := by
            have hu := alookup_unique a hs.1 q hq
            rw [hk, hl] at hu
            exact (Option.some.inj hu).symm
          rw [h1, h2, if_pos hk]
          refine ⟨rfl, ?_, ?_⟩
          · intro htag
            have hch : q.2.children = [] := hs.2.1 q hq htag
            rw [hqn] at hch
            exact hce (by simp [hch])
          · intro _ hch
            have hch' : q.2.children = [] := hch
            rw [hqn] at hch'
            exact hce (by simp [hch'])
        · rw [h2, if_neg hk] at hind
          have := h q hq hind
          rw [h1, h2, if_neg hk]
          exact this

theorem triInv_recomputeUp (fuel : Nat) :
    ∀ (a : Arena) (id root : Nat), Static root a → TriInv root a →
      TriInv root (recomputeIndeterminateUp fuel a id) := by
  induction fuel with
  | zero => intro a id root _ h; exact h
  | succ fuel ih =>
    intro a id root hs h
    cases hl : alookup a id with
    | none =>
      simp only [recomputeIndeterminateUp, hl]
      exact h
    | some n =>
      simp only [recomputeIndeterminateUp, hl]
      have hs1 : Static root (recomputeStep a id n) :=
        static_of_skel (skel_recomputeStep a id n) hs
      have h1 : TriInv root (recomputeStep a id n) := triInv_recomputeStep root a id n hl hs h
      cases hp : n.parentId with
      | none => exact h1
      | some pid => exact ih (recomputeStep a id n) pid root hs1 h1

theorem triInv_uncheckAllOp (root fuel : Nat) (a : Arena)
    (hs : Static root a) (h : TriInv root a) : TriInv root (uncheckAllOp fuel a root) := by
  simp only [uncheckAllOp]
  cases hl : alookup (setCheckedRecursive fuel a root false) root with
  | none =>
    simp only [hl]
    exact triInv_setCheckedRecursive root fuel a root false h
  | some r =>
    simp only [hl]
    have hs1 : Static root (setCheckedRecursive fuel a root false) :=
      static_of_skel (skel_setCheckedRecursive fuel a root false) hs
    have h1 := triInv_setCheckedRecursive root fuel a root false h
    intro p hp hind
    unfold updMap at hp
    obtain ⟨q, hq, hq1, hq2⟩ :=
      mem_map_pair (setCheckedRecursive fuel a root false)
        (fun k n => if k = root then { n with checked := true, indeterminate := true } else n)
        p hp
    by_cases hk : q.1 = root
    · rw [hq1, hq2, if_pos hk]
      refine ⟨rfl, hs1.2.2 q hq hk, ?_⟩
      intro hne
      exact absurd hk hne
    · rw [hq2, if_neg hk] at hind
      have := h1 q hq hind
      rw [hq1, hq2, if_neg hk]
      exact this

theorem triInv_applyOp (fuel root : Nat) (a : Arena) (op : ToggleOp)
    (hs : Static root a) (h : TriInv root a) : TriInv root (applyOp fuel root a op) := by
  cases op with
  | setChecked id v => exact triInv_setCheckedRecursive root fuel a id v h
  | recomputeUp id => exact triInv_recomputeUp fuel a id root hs h
  | checkAll => exact triInv_setCheckedRecursive root fuel a root true h
  | uncheckAll => exact triInv_uncheckAllOp root fuel a hs h

/-- Counterexample to C5 as stated: the freshly built tree of a Document
with no children (all nodes unmixed, placemarks childless, root a
folder) turns, after the single public operation `uncheckAll`, into a
tree whose root is indeterminate while having no children — an
indeterminate childless folder. -/
theorem uncheckAll_childless_root_mixed :
    Static (buildTreeFromKml emptyDoc).rootNodeId (buildTreeFromKml emptyDoc).nodesById ∧
      (∀ p ∈ (buildTreeFromKml emptyDoc).nodesById, p.2.indeterminate = false) ∧
      (alookup (applyOps 1 (buildTreeFromKml emptyDoc).rootNodeId
          (buildTreeFromKml emptyDoc).nodesById [ToggleOp.uncheckAll])
        (buildTreeFromKml emptyDoc).rootNodeId).map
        (fun n => (n.indeterminate, n.children.isEmpty)) = some (true, true) := by
  refine ⟨by decide, by decide, by decide⟩

/-- Claim C5 (amended): after any sequence of the public toggle
operations starting from a tree with the build-time structure (distinct
ids, childless placemarks, non-placemark root) and no mixed nodes, every
node with `indeterminate = true` also has `checked = true` and is a
folder, and every indeterminate node other than the root has at least
one child; the root itself can be left indeterminate while childless (by
`uncheckAll` on a childless root). -/
theorem triState_invariant (fuel root : Nat) (a : Arena) (ops : List ToggleOp)
    (hs : Static root a) (h0 : ∀ p ∈ a, p.2.indeterminate = false) :
    TriInv root (applyOps fuel root a ops) := by
  have h : TriInv root a := fun p hp hind => absurd hind (by rw [h0 p hp]; exact Bool.false_ne_true)
  clear h0
  revert a
  induction ops with
  | nil => intro a _ h; exact h
  | cons op rest ih =>
    intro a hs h
    exact ih (applyOp fuel root a op) (static_of_skel (skel_applyOp fuel root a op) hs)
      (triInv_applyOp fuel root a op hs h)

/-- Witness for the amended C5 on `sampleArena` under the sequence
uncheck-all, check leaf 3, recompute upward from folder 2. -/
theorem triState_invariant_witness :
    Static 1 sampleArena ∧ (∀ p ∈ sampleArena, p.2.indeterminate = false) ∧
      TriInv 1 (applyOps 5 1 sampleArena
        [ToggleOp.uncheckAll, ToggleOp.setChecked 3 true, ToggleOp.recomputeUp 2]) :=
  ⟨by decide, by decide, triState_invariant 5 1 sampleArena _ (by decide) (by decide)⟩

end VPlot
